import Mathlib

/-!
Verification of the rose-curve plotting script `hw1.py`.

The script computes `theta = np.linspace(0, 2*np.pi, 100)` and
`r = 1 + np.sin(4*theta)`, draws the pair on a polar axis, saves the
figure to `hw1_plot.pdf` and finally shows it interactively.

The numeric arrays are embedded over the real numbers; the straight-line
sequence of side-effecting steps is embedded as an explicit trace.
-/

namespace Hw1

/-- `np.linspace start stop n` (with the default `endpoint=True`):
`n` evenly spaced samples over `[start, stop]`, step `(stop-start)/(n-1)`. -/
noncomputable def linspace (start stop : ℝ) (n : ℕ) (i : ℕ) : ℝ :=
  start + i * (stop - start) / ((n : ℝ) - 1)

/-- `theta = np.linspace(0, 2*np.pi, 100)`, the `i`-th sample. -/
noncomputable def theta (i : ℕ) : ℝ :=
  linspace 0 (2 * Real.pi) 100 i

/-- The angle array as an ordered sequence of its 100 samples. -/
noncomputable def theta_seq : List ℝ :=
  (List.range 100).map theta

/-- `r = 1 + np.sin(4*theta)`: numpy broadcasts the scalar ops over the
`theta` array elementwise. -/
noncomputable def r_seq : List ℝ :=
  theta_seq.map (fun t => 1 + Real.sin (4 * t))

/-- The `i`-th radius value, `1 + sin(4 * theta i)`. -/
noncomputable def r (i : ℕ) : ℝ :=
  1 + Real.sin (4 * theta i)

/-- The side-effecting steps of the script, one per source line, in
source order. -/
inductive Step where
  | computeTheta
  | computeR
  | subplotsPolar
  | plotLine
  | setTitle
  | savefig
  | showPlot
deriving DecidableEq

/-- The straight-line script: each step appears exactly once, in the
order the source lines execute. -/
def program : List Step :=
  [Step.computeTheta, Step.computeR, Step.subplotsPolar, Step.plotLine,
   Step.setTitle, Step.savefig, Step.showPlot]

/-- The errors the script can encounter. `writeError`: the output file
cannot be created or written; `renderError`: the plotting collaborator
fails. -/
inductive ExecError where
  | writeError
  | renderError
deriving DecidableEq

/-- Modelled from the spec: the failure behaviour of `plt.savefig`, which
lives in the plotting library, not in this repository. When the working
directory is not writable (`writable = false`) the save step raises a
`WriteError`; the other steps succeed in the environments considered. -/
def stepResult (writable : Bool) (s : Step) : Except ExecError Unit :=
  match s with
  | Step.savefig =>
      if writable then Except.ok () else Except.error ExecError.writeError
  | _ => Except.ok ()

/-- Modelled from the spec: the Python runtime semantics of the
straight-line script, which contains no exception handler. Steps run in
order; an uncaught exception stops execution at once and propagates.
Returns the list of steps that were started and the final outcome. -/
def runSteps (writable : Bool) : List Step → List Step × Except ExecError Unit
  | [] => ([], Except.ok ())
  | s :: rest =>
    match stepResult writable s with
    | Except.ok _ =>
        let p := runSteps writable rest
        (s :: p.1, p.2)
    | Except.error e => ([s], Except.error e)

/-- Modelled from the spec: the process exit status — 0 when every step
succeeded, non-zero when an uncaught exception terminated the process. -/
def exitCode (res : Except ExecError Unit) : ℕ :=
  match res with
  | Except.ok _ => 0
  | Except.error _ => 1

/-- One full run of the script in an environment where the working
directory is writable (`true`) or not (`false`). -/
def runProgram (writable : Bool) : List Step × Except ExecError Unit :=
  runSteps writable program

/-- The curve-data computation viewed as a function of the run
environment: the source reads no input at all, so the result ignores the
environment entirely. -/
noncomputable def generateCurve {Env : Type} (_e : Env) : List ℝ × List ℝ :=
  (theta_seq, r_seq)

lemma theta_eq (i : ℕ) : theta i = i * (2 * Real.pi) / 99 := by
  unfold theta linspace
  norm_num

lemma theta_seq_length : theta_seq.length = 100 := by
  simp [theta_seq]

lemma r_seq_length : r_seq.length = 100 := by
  simp [r_seq, theta_seq]

lemma theta_seq_get (i : Fin 100) :
    theta_seq.get (Fin.cast theta_seq_length.symm i) = theta i := by
  simp [theta_seq, List.get_eq_getElem]

lemma r_seq_get (i : Fin 100) :
    r_seq.get (Fin.cast r_seq_length.symm i) = r i := by
  simp [r_seq, theta_seq, r, List.get_eq_getElem]

end Hw1

/-- C2: the angle sequence is 100 values evenly spaced over `[0, 2π]`:
consecutive samples differ by exactly `2π/99`. -/
theorem C2_angle_spacing (i : Fin 99) :
    Hw1.theta_seq.get (Fin.cast Hw1.theta_seq_length.symm i.succ.castSucc) -
      Hw1.theta_seq.get (Fin.cast Hw1.theta_seq_length.symm i.castSucc.castSucc) =
      2 * Real.pi / 99 := by
  rw [Hw1.theta_seq_get, Hw1.theta_seq_get, Hw1.theta_eq, Hw1.theta_eq]
  have h1 : ((i.succ.castSucc : Fin 100) : ℕ) = (i : ℕ) + 1 := by simp
  have h2 : ((i.castSucc.castSucc : Fin 100) : ℕ) = (i : ℕ) := by simp
  rw [h1, h2]
  push_cast
  ring

/-- C3: the angle sequence includes both endpoints:
`theta[0] = 0` and `theta[99] = 2π` (exactly, over the reals). -/
theorem C3_angle_endpoints :
    Hw1.theta_seq.get (Fin.cast Hw1.theta_seq_length.symm 0) = 0 ∧
      Hw1.theta_seq.get (Fin.cast Hw1.theta_seq_length.symm 99) = 2 * Real.pi := by
  constructor
  · rw [Hw1.theta_seq_get, Hw1.theta_eq]
    norm_num
  · rw [Hw1.theta_seq_get, Hw1.theta_eq]
    have h99 : ((99 : Fin 100) : ℕ) = 99 := rfl
    rw [h99]
    push_cast
    ring

/-- C1: for every index `i`, the radius sequence satisfies
`r[i] = 1 + sin(4 * theta[i])`, a total function of the angle with no
side conditions (the statement holds exactly over the reals, hence in
particular within tolerance `1e-12`). -/
theorem C1_radius_formula (i : Fin 100) :
    Hw1.r_seq.get (Fin.cast Hw1.r_seq_length.symm i) =
      1 + Real.sin (4 * Hw1.theta_seq.get (Fin.cast Hw1.theta_seq_length.symm i)) := by
  rw [Hw1.r_seq_get, Hw1.theta_seq_get, Hw1.r]

/-- C4: the angle and radius sequences each have exactly 100 elements,
and `r[i]` corresponds positionally to `theta[i]`. -/
theorem C4_lengths_and_correspondence :
    Hw1.theta_seq.length = 100 ∧ Hw1.r_seq.length = 100 ∧
      ∀ i : Fin 100,
        Hw1.r_seq.get (Fin.cast Hw1.r_seq_length.symm i) =
          Hw1.r i := by
  refine ⟨Hw1.theta_seq_length, Hw1.r_seq_length, ?_⟩
  intro i
  exact Hw1.r_seq_get i

/-- C5: every radius value lies in the closed interval `[0, 2]`. -/
theorem C5_radius_range (i : Fin 100) :
    0 ≤ Hw1.r_seq.get (Fin.cast Hw1.r_seq_length.symm i) ∧
      Hw1.r_seq.get (Fin.cast Hw1.r_seq_length.symm i) ≤ 2 := by
  rw [Hw1.r_seq_get, Hw1.r]
  constructor
  · linarith [Real.neg_one_le_sin (4 * Hw1.theta (i : ℕ))]
  · linarith [Real.sin_le_one (4 * Hw1.theta (i : ℕ))]

/-- C10: the angle sequence is strictly increasing: each sample is
strictly smaller than the next. -/
theorem C10_angle_strict_mono (i : Fin 99) :
    Hw1.theta_seq.get (Fin.cast Hw1.theta_seq_length.symm i.castSucc.castSucc) <
      Hw1.theta_seq.get (Fin.cast Hw1.theta_seq_length.symm i.succ.castSucc) := by
  rw [Hw1.theta_seq_get, Hw1.theta_seq_get, Hw1.theta_eq, Hw1.theta_eq]
  have h1 : ((i.succ.castSucc : Fin 100) : ℕ) = (i : ℕ) + 1 := by simp
  have h2 : ((i.castSucc.castSucc : Fin 100) : ℕ) = (i : ℕ) := by simp
  rw [h1, h2]
  have hpi : 0 < Real.pi := Real.pi_pos
  have hlt : ((i : ℕ) : ℝ) < ((i : ℕ) : ℝ) + 1 := by linarith
  push_cast
  rw [div_lt_div_iff₀ (by norm_num) (by norm_num)]
  nlinarith

/-- C9: the curve is closed: the first and last radius values coincide
(`r[0] = r[99] = 1`, exactly over the reals), and the first and last
angles denote the same polar direction (they differ by an integer
multiple of `2π`). -/
theorem C9_curve_closed :
    Hw1.r_seq.get (Fin.cast Hw1.r_seq_length.symm 0) = 1 ∧
      Hw1.r_seq.get (Fin.cast Hw1.r_seq_length.symm 99) = 1 ∧
      ∃ k : ℤ,
        Hw1.theta_seq.get (Fin.cast Hw1.theta_seq_length.symm 99) -
          Hw1.theta_seq.get (Fin.cast Hw1.theta_seq_length.symm 0) = k * (2 * Real.pi) := by
  have h0 : Hw1.theta 0 = 0 := by
    rw [Hw1.theta_eq]; norm_num
  have h99 : Hw1.theta 99 = 2 * Real.pi := by
    rw [Hw1.theta_eq]; push_cast; ring
  refine ⟨?_, ?_, ?_⟩
  · rw [Hw1.r_seq_get, Hw1.r]
    have hz : ((0 : Fin 100) : ℕ) = 0 := rfl
    rw [hz, h0]
    simp
  · rw [Hw1.r_seq_get, Hw1.r]
    have hn : ((99 : Fin 100) : ℕ) = 99 := rfl
    rw [hn, h99]
    have h8 : 4 * (2 * Real.pi) = (8 : ℕ) * Real.pi := by push_cast; ring
    rw [h8, Real.sin_nat_mul_pi]
    norm_num
  · refine ⟨1, ?_⟩
    rw [Hw1.theta_seq_get, Hw1.theta_seq_get]
    have hz : ((0 : Fin 100) : ℕ) = 0 := rfl
    have hn : ((99 : Fin 100) : ℕ) = 99 := rfl
    rw [hz, hn, h0, h99]
    ring

/-- C6: in every execution the save-to-file step occurs strictly before
the interactive display step: any position of `savefig` in the program
trace precedes any position of `showPlot`. -/
theorem C6_save_before_show (i j : Fin Hw1.program.length)
    (hi : Hw1.program.get i = Hw1.Step.savefig)
    (hj : Hw1.program.get j = Hw1.Step.showPlot) : i < j := by
  revert hi hj
  fin_cases i <;> fin_cases j <;> decide

/-- Witness for C6: `savefig` sits at position 5 of the trace and
`showPlot` at position 6, and 5 < 6. -/
theorem C6_save_before_show_witness :
    Hw1.program.get ⟨5, by decide⟩ = Hw1.Step.savefig ∧
      Hw1.program.get ⟨6, by decide⟩ = Hw1.Step.showPlot ∧
      (⟨5, by decide⟩ : Fin Hw1.program.length) < ⟨6, by decide⟩ :=
  ⟨by decide, by decide,
    C6_save_before_show ⟨5, by decide⟩ ⟨6, by decide⟩ (by decide) (by decide)⟩

/-- C7: when the working directory is not writable, the save step fails
with a `WriteError` that is not recovered: the run ends with that error,
the exit status is non-zero, and the interactive display step is never
started. -/
theorem C7_write_failure_propagates :
    (Hw1.runProgram false).2 = Except.error Hw1.ExecError.writeError ∧
      Hw1.exitCode (Hw1.runProgram false).2 ≠ 0 ∧
      Hw1.Step.showPlot ∉ (Hw1.runProgram false).1 :=
  ⟨rfl, by decide, by decide⟩

/-- C8: the curve-data computation is deterministic: it reads nothing
from its environment, so two runs in any two environments produce
identical angle and radius sequences. -/
theorem C8_deterministic {Env : Type} (e1 e2 : Env) :
    Hw1.generateCurve e1 = Hw1.generateCurve e2 :=
  rfl
